import Mathlib

/-!
Verification of the api-endpoint-mapper crawl engine.

Shallow embedding of the core components of the repository:
the confidence scorer (wasm/assembly/index.ts and the JS fallback in
wasm-pattern-matcher), the domain validator (lib/utils), the pattern
matcher parameter extraction (lib/pattern-matcher), the URL-policy
functions `looksLikeAPI` / `shouldCrawlUrl`, the endpoint registry and
security classifier, and the crawl orchestration loop of
lib/spider-crawler.ts.  Platform facilities used by the code (the WHATWG
`URL` parser and `URLSearchParams`) are external collaborators and are
modelled by a small hierarchical-URL parser sufficient for
`scheme://host[:port]/path?query#hash` URLs.
-/

namespace APIMapper

/-! ### Generic string helpers (JS `includes`, `startsWith`, `endsWith`) -/

/-- Characters matched by the JS regex class `\w` : `[A-Za-z0-9_]`. -/
def isWordChar (c : Char) : Bool :=
  c.isAlpha || c.isDigit || c == '_'

/-- The needle `pat` occurs as a contiguous segment of `s` (JS `String.includes`). -/
def listContains (s pat : List Char) : Bool :=
  match s with
  | [] => pat.isEmpty
  | _ :: rest => pat.isPrefixOf s || listContains rest pat

/-- JS `url.includes(sub)`. -/
def strContains (s sub : String) : Bool :=
  listContains s.toList sub.toList

/-- JS `url.startsWith(sub)`. -/
def strStartsWith (s sub : String) : Bool :=
  sub.toList.isPrefixOf s.toList

/-- JS `url.endsWith(sub)`. -/
def strEndsWith (s sub : String) : Bool :=
  sub.toList.isSuffixOf s.toList

/-- JS `String.toLowerCase` (ASCII case folding, which is all the code uses). -/
def strToLower (s : String) : String :=
  ⟨s.toList.map Char.toLower⟩

/-- JS `String.split(sep)` for a one-character separator. -/
def splitChar (sep : Char) : List Char → List (List Char)
  | [] => [[]]
  | c :: rest =>
    match splitChar sep rest with
    | [] => [[]]
    | g :: gs => if c = sep then [] :: g :: gs else (c :: g) :: gs

/-! ### Confidence scoring

Source: `wasm/assembly/index.ts`, `calculateConfidence`, and its JS
fallback `WASMPatternMatcherImpl.calculateConfidence` (identical
structure).  Machine floating point is modelled by exact rationals; every
constant in the source is a short decimal, and all sums stay well inside
the exactly-representable range, so the branch structure is unchanged. -/

def calculateConfidence (patternCount matchCount : ℕ) : ℚ :=
  if matchCount = 0 then 0
  else
    let confidence : ℚ := 3/10
    let confidence := if matchCount > 1 then confidence + 2/10 else confidence
    let confidence := if matchCount > 5 then confidence + 2/10 else confidence
    let confidence := if matchCount > 10 then confidence + 1/10 else confidence
    let confidence := if patternCount > 2 then confidence + 2/10 else confidence
    min confidence 1

/-- The scoring rule exactly as the specification words it: 0 on zero
matches, otherwise a base of 0.3 plus the four bonuses, clamped to the
interval [0, 1]. -/
def confidenceSpec (patternCount matchCount : ℕ) : ℚ :=
  if matchCount = 0 then 0
  else
    max 0 (min 1 ((3/10 : ℚ)
      + (if matchCount > 1 then 2/10 else 0)
      + (if matchCount > 5 then 2/10 else 0)
      + (if matchCount > 10 then 1/10 else 0)
      + (if patternCount > 2 then 2/10 else 0)))

/-! ### Domain validation (source: `lib/utils.ts`, `isValidDomain`) -/

/-- The cleanup prefix removal `domain.replace(/^https?:\/\//, '')`. -/
def dropSchemeForDomain (s : String) : String :=
  if strStartsWith s "https://" then ⟨s.toList.drop 8⟩
  else if strStartsWith s "http://" then ⟨s.toList.drop 7⟩
  else s

/-- The cleanup `cleanDomain`: protocol removed, then `.replace(/\/.*$/, '')` (cut at
the first slash), then `.split(':')[0]` (cut at the first colon). -/
def cleanDomainOf (domain : String) : String :=
  ⟨((dropSchemeForDomain domain).toList.takeWhile (· ≠ '/')).takeWhile (· ≠ ':')⟩

/-- One dotted group of the IP regex: `[0-9]{1,3}`. -/
def isIpGroup (g : List Char) : Bool :=
  decide (1 ≤ g.length) && decide (g.length ≤ 3) && g.all Char.isDigit

/-- JS regex `^(?:[0-9]{1,3}\.){3}[0-9]{1,3}$`. -/
def ipRegexTest (s : String) : Bool :=
  let groups := splitChar '.' s.toList
  decide (groups.length = 4) && groups.all isIpGroup

/-- One label of the domain regex:
`[a-zA-Z0-9]([a-zA-Z0-9-]{0,61}[a-zA-Z0-9])?` — nonempty, starts and
ends with an alphanumeric, interior characters alphanumeric or hyphen,
at most 63 characters. -/
def isDomainLabel (l : List Char) : Bool :=
  match l with
  | [] => false
  | [c] => c.isAlphanum
  | c :: rest =>
    c.isAlphanum && decide (l.length ≤ 63) &&
    rest.dropLast.all (fun x => x.isAlphanum || x == '-') &&
    (match rest.getLast? with
     | some x => x.isAlphanum
     | none => false)

/-- JS regex
`^[a-zA-Z0-9]([a-zA-Z0-9-]{0,61}[a-zA-Z0-9])?(\.[a-zA-Z0-9]([a-zA-Z0-9-]{0,61}[a-zA-Z0-9])?)*$`. -/
def domainRegexTest (s : String) : Bool :=
  (splitChar '.' s.toList).all isDomainLabel

/-- JS regex `^[a-zA-Z0-9][a-zA-Z0-9-]*[a-zA-Z0-9]*$` — the two trailing
classes collapse to: first character alphanumeric, remaining characters
alphanumeric or hyphen. -/
def singleWordRegexTest (s : String) : Bool :=
  match s.toList with
  | [] => false
  | c :: rest => c.isAlphanum && rest.all (fun x => x.isAlphanum || x == '-')

/-- Source: `lib/utils.ts`, `isValidDomain`. -/
def isValidDomain (domain : String) : Bool :=
  let cleanDomain := cleanDomainOf domain
  if cleanDomain == "localhost" then true
  else if ipRegexTest cleanDomain then true
  else if domainRegexTest cleanDomain && strContains cleanDomain "." then true
  else if singleWordRegexTest cleanDomain && decide (cleanDomain.length ≥ 2) then true
  else false

/-! ### URL model

The repository calls the platform's WHATWG `URL` constructor (`new
URL(url)`), listed by the specification as an external collaborator.
`parseUrl` models it for hierarchical `scheme://host[:port]/path?query#hash`
URLs: a parse failure corresponds to the constructor throwing. -/

structure UrlObj where
  protocol : String   -- scheme plus trailing colon, e.g. "https:"
  hostname : String   -- lowercased host
  port : String       -- decimal digits, or "" when absent
  pathname : String   -- always starts with '/', defaulted to "/"
  search : String     -- "" or "?" followed by a nonempty query
  hash : String       -- "" or "#" followed by a nonempty fragment
  deriving Repr, DecidableEq

/-- JS `url.host`: hostname plus the explicit port, if any. -/
def UrlObj.host (u : UrlObj) : String :=
  if u.port == "" then u.hostname else u.hostname ++ ":" ++ u.port

def isSchemeChar (c : Char) : Bool :=
  c.isAlpha || c.isDigit || c == '+' || c == '-' || c == '.'

/-- Code points the URL standard forbids in a host (the ones a crawl URL
could plausibly contain; a space is the relevant case for this code). -/
def isForbiddenHostChar (c : Char) : Bool :=
  c.val < 33 || c == '#' || c == '/' || c == '?' || c == '@' || c == ':' ||
  c == '<' || c == '>' || c == '[' || c == ']' || c == '\\' || c == '^' ||
  c == '|' || c == '"' || c == '{' || c == '}' || c == '%'

/-- Split an authority (already free of `/?#`) into hostname and port. -/
def parseHostPort (auth : List Char) : Option (String × String) :=
  -- userinfo: everything up to the last '@' is dropped
  let hostport := if auth.contains '@'
    then ((auth.reverse.takeWhile (· ≠ '@')).reverse)
    else auth
  let hostPart := hostport.takeWhile (· ≠ ':')
  let portPart := (hostport.dropWhile (· ≠ ':')).drop 1
  if hostPart.isEmpty then none
  else if hostPart.any isForbiddenHostChar then none
  else if portPart.all Char.isDigit then
    some (⟨hostPart.map Char.toLower⟩, ⟨portPart⟩)
  else none

def parseUrl (s : String) : Option UrlObj :=
  let cs := s.toList
  let scheme := cs.takeWhile (· ≠ ':')
  match scheme with
  | [] => none
  | c0 :: _ =>
    if !c0.isAlpha || !scheme.all isSchemeChar then none
    else
      let rest := cs.drop scheme.length
      if ['/', '/'].isPrefixOf (rest.drop 1) then
        let afterSlashes := rest.drop 3
        let auth := afterSlashes.takeWhile (fun c => c ≠ '/' && c ≠ '?' && c ≠ '#')
        match parseHostPort auth with
        | none => none
        | some (hostname, port) =>
          let tail := afterSlashes.drop auth.length
          let path := tail.takeWhile (fun c => c ≠ '?' && c ≠ '#')
          let afterPath := tail.drop path.length
          let query := (if afterPath.head? = some '?'
            then (afterPath.drop 1).takeWhile (· ≠ '#') else [])
          let frag := (afterPath.dropWhile (· ≠ '#')).drop 1
          some {
            protocol := ⟨scheme.map Char.toLower ++ [':']⟩
            hostname := hostname
            port := port
            pathname := if path.isEmpty then "/" else ⟨path⟩
            search := if query.isEmpty then "" else ⟨'?' :: query⟩
            hash := if frag.isEmpty then "" else ⟨'#' :: frag⟩ }
      else none

/-- Whether `new URL(url)` succeeds. -/
def urlParses (s : String) : Bool :=
  (parseUrl s).isSome

/-! ### Pattern matcher parameter extraction

Source: `lib/pattern-matcher.ts`, `PatternMatcher.extractParameters`. -/

inductive ParamType where
  | query | path | body | header
  deriving Repr, DecidableEq

structure RawParam where
  name : String
  type : ParamType
  deriving Repr, DecidableEq

/-- Keys of `urlObj.searchParams` in iteration order: the query split on
`&`, empty pieces dropped, each key the part before the first `=`
(duplicate keys are kept, as `URLSearchParams.forEach` visits each
entry). -/
def searchParamKeys (search : String) : List String :=
  let q := if search.toList.head? = some '?' then search.toList.drop 1 else search.toList
  ((splitChar '&' q).filter (fun p => !p.isEmpty)).map
    (fun p => (⟨p.takeWhile (· ≠ '=')⟩ : String))

/-- One pass of the global JS regex `\{(\w+)\}|:(\w+)`, fuelled by the
input length (the scan consumes at least one character per step, so the
fuel never runs out when initialized to the length). -/
def scanPathParamsGo (fuel : ℕ) (l : List Char) : List String :=
  match fuel, l with
  | 0, _ => []
  | _, [] => []
  | fuel + 1, c :: rest =>
    if c = '{' then
      let w := rest.takeWhile isWordChar
      let r := rest.dropWhile isWordChar
      match r with
      | '}' :: r2 =>
        if w.isEmpty then scanPathParamsGo fuel rest
        else ⟨w⟩ :: scanPathParamsGo fuel r2
      | _ => scanPathParamsGo fuel rest
    else if c = ':' then
      let w := rest.takeWhile isWordChar
      if w.isEmpty then scanPathParamsGo fuel rest
      else ⟨w⟩ :: scanPathParamsGo fuel (rest.dropWhile isWordChar)
    else scanPathParamsGo fuel rest

/-- All matches of the global JS regex `\{(\w+)\}|:(\w+)` over the raw
URL string, each stripped of `{`, `}` and `:` — the path-parameter
heuristic of `extractParameters`. -/
def scanPathParams (l : List Char) : List String :=
  scanPathParamsGo l.length l

/-- Source: `PatternMatcher.extractParameters`.  Query keys come from
the parsed URL; path parameters from the token scan over the raw URL
text.  An unparsable URL yields no parameters. -/
def extractParameters (url : String) : List RawParam :=
  match parseUrl url with
  | none => []
  | some u =>
    (searchParamKeys u.search).map (fun k => ⟨k, ParamType.query⟩)
      ++ (scanPathParams url.toList).map (fun n => ⟨n, ParamType.path⟩)

/-! ### The "looks like an API" heuristic

Source: `lib/spider-crawler.ts`, `SpiderCrawler.looksLikeAPI`.  The JS
regex tests are modelled by explicit scanners over the character list;
each regex in the source is deterministic (no alternative requires
backtracking, since every repeated class is disjoint from the character
that follows it). -/

/-- Try a matcher at every suffix of the list (regex `test` semantics). -/
def scanAny (m : List Char → Bool) : List Char → Bool
  | [] => m []
  | c :: rest => m (c :: rest) || scanAny m rest

/-- Try a matcher that also sees the preceding character (for `\b`). -/
def scanPrevAny (m : Option Char → List Char → Bool) :
    Option Char → List Char → Bool
  | prev, [] => m prev []
  | prev, c :: rest => m prev (c :: rest) || scanPrevAny m (some c) rest

/-- Regex `\d+\/` : one or more digits, then a slash. -/
def digitsThenSlash : List Char → Bool
  | [] => false
  | c :: rest => if c = '/' then true else c.isDigit && digitsThenSlash rest

def digitsOneThenSlash : List Char → Bool
  | [] => false
  | c :: rest => c.isDigit && digitsThenSlash rest

/-- Regex `/\/v\d+\//i` at this position (input already lowercased). -/
def matchVNum : List Char → Bool
  | '/' :: 'v' :: rest => digitsOneThenSlash rest
  | _ => false

/-- Regex `/\/version\d+\//i` at this position (input already lowercased). -/
def matchVersionNum (l : List Char) : Bool :=
  "/version".toList.isPrefixOf l && digitsOneThenSlash (l.drop 8)

/-- Regex `/\/api\/v\d+/i` at this position (input already lowercased). -/
def matchApiV (l : List Char) : Bool :=
  "/api/v".toList.isPrefixOf l &&
    (match (l.drop 6).head? with
     | some c => c.isDigit
     | none => false)

def httpMethodWords : List String :=
  ["get", "post", "put", "patch", "delete", "head", "options"]

/-- Regex `/\/(get|post|put|patch|delete|head|options)\//i` at this position. -/
def matchMethodSeg : List Char → Bool
  | '/' :: rest => httpMethodWords.any (fun w => (w ++ "/").toList.isPrefixOf rest)
  | _ => false

/-- Regex `/\/\w+\/\d+/` at this position: slash, word run, slash, digit. -/
def matchResNum : List Char → Bool
  | '/' :: rest =>
    let w := rest.takeWhile isWordChar
    let r := rest.dropWhile isWordChar
    !w.isEmpty &&
      (match r with
       | '/' :: c :: _ => c.isDigit
       | _ => false)
  | _ => false

/-- Regex `/\/\w+\/\{\w+\}/` at this position. -/
def matchResBrace : List Char → Bool
  | '/' :: rest =>
    let w := rest.takeWhile isWordChar
    let r := rest.dropWhile isWordChar
    !w.isEmpty &&
      (match r with
       | '/' :: '{' :: r2 =>
         let w2 := r2.takeWhile isWordChar
         !w2.isEmpty && (r2.dropWhile isWordChar).head? = some '}'
       | _ => false)
  | _ => false

/-- Regex `/\/\w+\/:\w+/` at this position. -/
def matchResColon : List Char → Bool
  | '/' :: rest =>
    let w := rest.takeWhile isWordChar
    let r := rest.dropWhile isWordChar
    !w.isEmpty &&
      (match r with
       | '/' :: ':' :: c :: _ => isWordChar c
       | _ => false)
  | _ => false

/-- Regex `/\?[\w=&]+/` at this position. -/
def matchQueryParam : List Char → Bool
  | '?' :: c :: _ => isWordChar c || c = '=' || c = '&'
  | _ => false

def apiKeywordWords : List String :=
  ["api", "rest", "service", "backend", "endpoint"]

/-- Regex `/\b(api|rest|service|backend|endpoint)\b/i` at this position
(input already lowercased); `prev` is the character before it. -/
def matchApiKeyword (prev : Option Char) (l : List Char) : Bool :=
  (match prev with
   | none => true
   | some c => !isWordChar c) &&
  apiKeywordWords.any (fun w =>
    w.toList.isPrefixOf l &&
      (match (l.drop w.length).head? with
       | none => true
       | some c => !isWordChar c))

def statusCodeWords : List String :=
  ["200", "201", "400", "401", "403", "404", "500"]

/-- Regex `/\/(200|201|400|401|403|404|500)/` at this position. -/
def matchStatusCode : List Char → Bool
  | '/' :: rest => statusCodeWords.any (fun w => w.toList.isPrefixOf rest)
  | _ => false

def strongIndicators : List String :=
  ["/api/", "/rest/", "/graphql", "/oauth", "/auth/", "/token",
   "/login", "/register", "/users", "/user/", "/admin/", "/data/",
   "/search", "/upload", "/download", "/export", "/import",
   ".json", ".xml", ".yaml", ".yml"]

def apiExtensions : List String :=
  [".json", ".xml", ".yaml", ".yml", ".rss", ".atom"]

/-- Source: `SpiderCrawler.looksLikeAPI`. -/
def looksLikeAPI (url : String) : Bool :=
  let lowerUrl := strToLower url
  let lower := lowerUrl.toList
  let raw := url.toList
  if strongIndicators.any (fun ind => strContains lowerUrl ind) then true
  else if scanAny matchVNum lower || scanAny matchVersionNum lower ||
      scanAny matchApiV lower then true
  else if scanAny matchMethodSeg lower then true
  else if (scanAny matchResNum raw || scanAny matchResBrace raw ||
        scanAny matchResColon raw || scanAny matchQueryParam raw) &&
      scanPrevAny matchApiKeyword none lower then true
  else if apiExtensions.any (fun ext => strEndsWith lowerUrl ext) then true
  else if scanAny matchStatusCode raw then true
  else false

/-! ### Link-following policy

Source: `SpiderCrawler.shouldCrawlUrl`.  `includeExternalLinks` is the
only configuration field the function reads. -/

def skipExtensions : List String :=
  [".pdf", ".jpg", ".jpeg", ".png", ".gif", ".svg", ".ico",
   ".woff", ".woff2", ".ttf", ".mp4", ".mp3", ".zip", ".exe"]

def nonCrawlableSchemes : List String :=
  ["mailto:", "tel:", "javascript:", "ftp:"]

def shouldCrawlUrl (includeExternalLinks : Bool) (url baseUrl : String) : Bool :=
  match parseUrl url, parseUrl baseUrl with
  | some urlObj, some baseObj =>
    let isExternalAPI := looksLikeAPI url &&
      (strContains urlObj.hostname "api" || strContains urlObj.hostname "rest" ||
       strContains urlObj.hostname "service" ||
       strContains url "/api/" || strContains url "/rest/")
    if !includeExternalLinks && urlObj.hostname ≠ baseObj.hostname &&
        !isExternalAPI then false
    else if skipExtensions.any
        (fun ext => strEndsWith (strToLower urlObj.pathname) ext) then false
    else if looksLikeAPI url then true
    else if nonCrawlableSchemes.any (fun proto => strStartsWith url proto) then false
    else if urlObj.hash ≠ "" && urlObj.search == "" && !looksLikeAPI url then false
    else true
  | _, _ => false

/-! ### Security classifier

Source: `SpiderCrawler.analyzeEndpointSecurity`. -/

inductive Severity where
  | low | medium | high | critical
  deriving Repr, DecidableEq

/-- Numeric rank of a severity, for comparisons and maxima. -/
def Severity.rank : Severity → ℕ
  | .low => 0
  | .medium => 1
  | .high => 2
  | .critical => 3

/-- Whether `a` is at most as severe as `b`. -/
def Severity.le (a b : Severity) : Bool :=
  a.rank ≤ b.rank

/-- The more severe of two severities. -/
def Severity.sup (a b : Severity) : Severity :=
  if a.rank ≤ b.rank then b else a

structure Vulnerability where
  type : String
  severity : Severity
  description : String
  recommendation : String
  deriving Repr, DecidableEq

structure SecurityAnalysis where
  hasAuth : Bool
  vulnerabilities : List Vulnerability
  riskLevel : Severity
  deriving Repr, DecidableEq

/-- Maximum severity among a list of findings (`low` for no findings). -/
def maxSeverity (vulns : List Vulnerability) : Severity :=
  vulns.foldl (fun acc v => acc.sup v.severity) Severity.low

def insecureProtocolVuln : Vulnerability :=
  { type := "Insecure Protocol", severity := .medium,
    description := "Endpoint uses HTTP instead of HTTPS",
    recommendation := "Use HTTPS for all API endpoints" }

def destructiveOperationVuln : Vulnerability :=
  { type := "Destructive Operation", severity := .high,
    description := "Endpoint performs destructive operations",
    recommendation := "Ensure proper authentication and authorization" }

def analyzeEndpointSecurity (url method : String) : SecurityAnalysis :=
  let st0 : List Vulnerability × Severity := ([], .low)
  let st1 := if strStartsWith url "http://"
    then (st0.1 ++ [insecureProtocolVuln], Severity.medium) else st0
  let st2 := if method == "DELETE"
    then (st1.1 ++ [destructiveOperationVuln], Severity.high) else st1
  { hasAuth := strContains url "/auth" || strContains url "/login",
    vulnerabilities := st2.1,
    riskLevel := st2.2 }

/-! ### Endpoint registry

Source: `SpiderCrawler.createEndpoint` and the `foundEndpoints` map
(`Map.set` keyed on `endpoint.id`), written to by every discovery path. -/

inductive EndpointSource where
  | crawl | js | html | sitemap | robots
  deriving Repr, DecidableEq

structure Parameter where
  name : String
  type : ParamType
  required : Bool
  deriving Repr, DecidableEq

structure Endpoint where
  id : String
  url : String
  method : String
  parameters : List Parameter
  headers : List (String × String)
  depth : ℕ
  source : EndpointSource
  security : SecurityAnalysis
  deriving Repr, DecidableEq

instance : Inhabited Endpoint :=
  ⟨{ id := "", url := "", method := "", parameters := [], headers := [],
     depth := 0, source := .crawl,
     security := { hasAuth := false, vulnerabilities := [], riskLevel := .low } }⟩

def createEndpoint (url method : String) (source : EndpointSource)
    (depth : ℕ) : Option Endpoint :=
  match parseUrl url with
  | none => none
  | some _ =>
    some { id := method ++ ":" ++ url
           url := url
           method := method
           parameters := (extractParameters url).map
             (fun p => { name := p.name, type := p.type,
                         required := p.type == ParamType.path })
           headers := []
           depth := depth
           source := source
           security := analyzeEndpointSecurity url method }

/-- The `foundEndpoints` JS `Map`, as an insertion-ordered association
list. -/
abbrev EndpointRegistry := List (String × Endpoint)

/-- JS `Map.set`: update in place when the key exists, append otherwise. -/
def mapSet (m : EndpointRegistry) (k : String) (v : Endpoint) : EndpointRegistry :=
  if m.any (fun p => p.1 == k) then
    m.map (fun p => if p.1 == k then (k, v) else p)
  else m ++ [(k, v)]

/-- JS `Map.get`. -/
def mapGet (m : EndpointRegistry) (k : String) : Option Endpoint :=
  (m.find? (fun p => p.1 == k)).map Prod.snd

/-- One recording event: the arguments every call site passes to
`createEndpoint` before `foundEndpoints.set(endpoint.id, endpoint)`. -/
structure RecordOp where
  url : String
  method : String
  source : EndpointSource
  depth : ℕ

/-- Combined `createEndpoint` + `foundEndpoints.set`, the shared recording idiom
of every discovery path (a `null` endpoint is dropped). -/
def recordEndpoint (m : EndpointRegistry) (op : RecordOp) : EndpointRegistry :=
  match createEndpoint op.url op.method op.source op.depth with
  | none => m
  | some e => mapSet m e.id e

/-- The registry after an arbitrary session: any interleaving of
recordings from the discovery strategies, the crawl loop and the
analyzers is some sequence of `recordEndpoint` events on the initially
empty map. -/
def applyOps (ops : List RecordOp) : EndpointRegistry :=
  ops.foldl recordEndpoint []

/-! ### Domain normalization and the crawl validation phase

Source: `SpiderCrawler.normalizeUrl` and the opening of
`SpiderCrawler.crawl` (progress events, domain validation, the throw on
`Invalid domain provided` and the `error`-stage event in the catch
block).  Everything after successful validation performs network I/O and
is represented by an arbitrary continuation on the validated base URL;
the failure path never reaches it. -/

def normalizeUrl (url : String) : Option String :=
  let url1 := if !strStartsWith url "http://" && !strStartsWith url "https://"
    then "https://" ++ url else url
  match parseUrl url1 with
  | none => none
  | some u => some (u.protocol ++ "//" ++ u.host)

inductive Stage where
  | initializing | crawling | analyzing | processing | completed | error
  deriving Repr, DecidableEq

/-- Observable outcome of a session: the progress stages emitted in
order, the settled result, and every network request issued against the
target. -/
structure CrawlOutcome where
  events : List Stage
  result : Except String Unit
  targetRequests : List String
  deriving Repr

/-- Model of `SpiderCrawler.crawl`: emit `initializing`, validate the domain via
`normalizeUrl`, and on failure throw `Invalid domain provided`, which
the catch block turns into an `error`-stage event before rethrowing.  No
request against the target is issued before validation (browser launch
in `initialize` targets no URL).  On success the crawl proper runs,
modelled by the continuation `rest`. -/
def crawlRun (domain : String) (rest : String → CrawlOutcome) : CrawlOutcome :=
  match normalizeUrl domain with
  | none =>
    { events := [Stage.initializing, Stage.error]
      result := Except.error "Invalid domain provided"
      targetRequests := [] }
  | some baseUrl =>
    let o := rest baseUrl
    { events := Stage.initializing :: o.events
      result := o.result
      targetRequests := o.targetRequests }

/-! ### Fetch abstraction with fallback

Source: `SpiderCrawler.initialize` and `SpiderCrawler.fetchPageContent`.
The network outcomes of the two clients are inputs. -/

inductive FetchClient where
  | puppeteer | axios
  deriving Repr, DecidableEq

/-- Config/browser state the fetch path reads:
`config.enableJavaScript` and whether `this.browser` is non-null. -/
structure FetchEnv where
  enableJavaScript : Bool
  browserLive : Bool
  deriving Repr, DecidableEq

/-- Model of `SpiderCrawler.initialize` (renamed here, the source name being a
reserved word): launch the browser only when JavaScript is enabled and
none is live; a launch failure is caught and disables JavaScript for
the session (falling back to non-JS mode). -/
def browserInit (env : FetchEnv) (launch : Except String Unit) : FetchEnv :=
  if env.enableJavaScript && !env.browserLive then
    match launch with
    | Except.ok _ => { enableJavaScript := true, browserLive := true }
    | Except.error _ => { enableJavaScript := false, browserLive := false }
  else env

/-- Model of `SpiderCrawler.fetchPageContent url`: rendered fetch when JavaScript
is enabled and a browser is live, with a caught-and-logged fallback to
the static client on any rendered-mode failure; a static failure is
caught by the outer handler, logged, and yields `none` (never a thrown
error).  Returns the page content and the log of `(client, url)` fetch
attempts. -/
def fetchPageContent (env : FetchEnv) (url : String)
    (puppeteerResult axiosResult : Except String String) :
    Option String × List (FetchClient × String) :=
  if env.enableJavaScript && env.browserLive then
    match puppeteerResult with
    | Except.ok content => (some content, [(FetchClient.puppeteer, url)])
    | Except.error _ =>
      match axiosResult with
      | Except.ok content =>
        (some content, [(FetchClient.puppeteer, url), (FetchClient.axios, url)])
      | Except.error _ =>
        (none, [(FetchClient.puppeteer, url), (FetchClient.axios, url)])
  else
    match axiosResult with
    | Except.ok content => (some content, [(FetchClient.axios, url)])
    | Except.error _ => (none, [(FetchClient.axios, url)])

/-! ### The parallel crawl loop under cooperative concurrency

Source: `SpiderCrawler.crawlParallel` and `SpiderCrawler.crawlSingle`,
executed on a single-threaded event loop.  `crawlSingle(url)` runs
synchronously from its entry — the `visitedUrls.has(url)` /
`visitedUrls.size >= maxPages` guard — up to its first suspension point
(`await rateLimiter.consume(...)`), and only adds `url` to
`visitedUrls` after resuming.  The admission loop of `crawlParallel`
launches up to `maxConcurrentCrawls = 16` such tasks back to back
without yielding, so several tasks can pass the budget guard before any
of them records a visit.  The simulation resumes suspended tasks in
start order (rate-limiter FIFO): one task per `Promise.race`, and all
remaining tasks at the final `Promise.all` drain. -/

structure SimConfig where
  maxPages : ℕ
  includeExternalLinks : Bool
  /-- Links extracted from the fetched content of a page
  (`extractLinks`); pages that fail to fetch yield none. -/
  fetchedLinks : String → List String

structure SimState where
  /-- Mirrors `this.crawlQueue` -/
  queue : List String
  /-- Mirrors `this.visitedUrls`, in insertion order -/
  visited : List String
  /-- suspended `crawlSingle` tasks, oldest first -/
  pendingTasks : List String

/-- JS `Set.add`. -/
def setAdd (s : List String) (x : String) : List String :=
  if s.contains x then s else s ++ [x]

/-- Synchronous prefix of `crawlSingle(url)`: the early-return guard,
then suspension at the rate limiter. -/
def crawlSingleEntry (cfg : SimConfig) (st : SimState) (url : String) : SimState :=
  if st.visited.contains url || st.visited.length ≥ cfg.maxPages then st
  else { st with pendingTasks := st.pendingTasks ++ [url] }

/-- Resumption of a suspended `crawlSingle(url)`: record the visit, then
fetch, extract, and enqueue the links admitted by `shouldCrawlUrl`. -/
def crawlSingleResume (cfg : SimConfig) (st : SimState) (url : String) : SimState :=
  let visited := setAdd st.visited url
  let links := (cfg.fetchedLinks url).filter
    (fun link => shouldCrawlUrl cfg.includeExternalLinks link url &&
      !visited.contains link)
  { queue := st.queue ++ links, visited := visited, pendingTasks := st.pendingTasks }

/-- The inner admission loop, structurally recursive on the queue:
`while (activeCrawls.size < 16 && crawlQueue.length > 0)` — pop a URL
and, unless already visited, start `crawlSingle` on it.  `started`
counts the promises in `activeCrawls`; the visited set does not change
during a fill pass (visits are recorded only after the rate-limiter
suspension point). -/
def fillGo (cfg : SimConfig) : List String → List String → List String → ℕ →
    List String × List String
  | [], _, pending, _ => ([], pending)
  | url :: restQueue, visited, pending, started =>
    if started < 16 then
      if visited.contains url then
        fillGo cfg restQueue visited pending started
      else if visited.contains url || visited.length ≥ cfg.maxPages then
        -- crawlSingle's early return: the promise still occupies a slot
        fillGo cfg restQueue visited pending (started + 1)
      else
        fillGo cfg restQueue visited (pending ++ [url]) (started + 1)
    else (url :: restQueue, pending)

def fillActiveSet (cfg : SimConfig) (st : SimState) (started : ℕ) : SimState :=
  let filled := fillGo cfg st.queue st.visited st.pendingTasks started
  { queue := filled.1, visited := st.visited, pendingTasks := filled.2 }

/-- Model of `await Promise.race(activeCrawls)`: resume the oldest pending task. -/
def raceOne (cfg : SimConfig) (st : SimState) : SimState :=
  match st.pendingTasks with
  | [] => st
  | url :: rest => crawlSingleResume cfg { st with pendingTasks := rest } url

/-- Model of `await Promise.all(activeCrawls)`: drain every remaining task in
start order (resumption never suspends a new task). -/
def drainGo (cfg : SimConfig) : List String → SimState → SimState
  | [], st => st
  | url :: rest, st => drainGo cfg rest (crawlSingleResume cfg st url)

def drainAll (cfg : SimConfig) (st : SimState) : SimState :=
  drainGo cfg st.pendingTasks { st with pendingTasks := [] }

/-- The outer `while (crawlQueue.length > 0 && visitedUrls.size <
maxPages)` loop, then the final drain.  `fuel` bounds the number of
outer iterations; the simulation is only evaluated at inputs where the
fuel suffices. -/
def crawlParallel (cfg : SimConfig) : ℕ → SimState → SimState
  | 0, st => drainAll cfg st
  | fuel + 1, st =>
    if st.queue ≠ [] && st.visited.length < cfg.maxPages then
      let filled := fillActiveSet cfg st st.pendingTasks.length
      let raced := if filled.pendingTasks ≠ [] then raceOne cfg filled else filled
      crawlParallel cfg fuel raced
    else drainAll cfg st

/-! ## Helper lemmas -/

theorem calcConf_eq_spec (p m : ℕ) : calculateConfidence p m = confidenceSpec p m := by
  unfold calculateConfidence confidenceSpec
  split_ifs <;> norm_num [min_def, max_def]

theorem confSpec_nonneg (p m : ℕ) : 0 ≤ confidenceSpec p m := by
  unfold confidenceSpec
  by_cases h : m = 0
  · rw [if_pos h]
  · rw [if_neg h]
    exact le_max_left 0 _

theorem confSpec_le_one (p m : ℕ) : confidenceSpec p m ≤ 1 := by
  unfold confidenceSpec
  by_cases h : m = 0
  · rw [if_pos h]
    norm_num
  · rw [if_neg h]
    exact max_le (by norm_num) (min_le_left 1 _)

theorem iteBonus_mono (k : ℕ) (v : ℚ) (hv : 0 ≤ v) {m1 m2 : ℕ} (h : m1 ≤ m2) :
    (if m1 > k then v else 0) ≤ (if m2 > k then v else 0) := by
  split_ifs with h1 h2
  · exact le_refl v
  · omega
  · exact hv
  · exact le_refl 0

theorem confSpec_mono (p : ℕ) {m1 m2 : ℕ} (h : m1 ≤ m2) :
    confidenceSpec p m1 ≤ confidenceSpec p m2 := by
  by_cases h1 : m1 = 0
  · have hz : confidenceSpec p m1 = 0 := by
      unfold confidenceSpec
      rw [if_pos h1]
    rw [hz]
    exact confSpec_nonneg p m2
  · have h2 : m2 ≠ 0 := by omega
    unfold confidenceSpec
    rw [if_neg h1, if_neg h2]
    refine max_le_max (le_refl 0) (min_le_min (le_refl 1) ?_)
    have b1 := iteBonus_mono 1 (2/10 : ℚ) (by norm_num) h
    have b2 := iteBonus_mono 5 (2/10 : ℚ) (by norm_num) h
    have b3 := iteBonus_mono 10 (1/10 : ℚ) (by norm_num) h
    linarith

/-- Registry invariant: the map keys are pairwise distinct, every entry
is stored under its endpoint id, and every id is the string
`method ++ ":" ++ url`. -/
def RegInv (m : EndpointRegistry) : Prop :=
  (m.map Prod.fst).Nodup ∧
  ∀ p ∈ m, p.1 = p.2.id ∧ p.2.id = p.2.method ++ ":" ++ p.2.url

theorem createEndpoint_id {url method : String} {source : EndpointSource}
    {depth : ℕ} {e : Endpoint}
    (h : createEndpoint url method source depth = some e) :
    e.id = e.method ++ ":" ++ e.url := by
  unfold createEndpoint at h
  rcases hu : parseUrl url with _ | u <;> rw [hu] at h
  · exact absurd h (by simp)
  · simp only [Option.some.injEq] at h
    subst h
    rfl

theorem regInv_mapSet {m : EndpointRegistry} {k : String} {v : Endpoint}
    (hm : RegInv m) (hk : v.id = k)
    (hid : v.id = v.method ++ ":" ++ v.url) :
    RegInv (mapSet m k v) := by
  unfold mapSet
  by_cases hex : m.any (fun p => p.1 == k) = true
  · rw [if_pos hex]
    refine ⟨?_, ?_⟩
    · have hkeep :
          (m.map (fun p => if p.1 == k then (k, v) else p)).map Prod.fst =
            m.map Prod.fst := by
        rw [List.map_map]
        apply List.map_congr_left
        intro p _
        by_cases h : p.1 == k
        · simp only [Function.comp_apply, if_pos h]
          exact (beq_iff_eq.mp h).symm
        · simp only [Function.comp_apply, if_neg h]
      rw [hkeep]
      exact hm.1
    · intro p hp
      rcases List.mem_map.mp hp with ⟨q, hq, rfl⟩
      by_cases h : q.1 == k
      · simp only [if_pos h]
        exact ⟨hk.symm, hid⟩
      · simp only [if_neg h]
        exact hm.2 q hq
  · rw [if_neg hex]
    have hnot : ∀ p ∈ m, p.1 ≠ k := by
      intro p hp
      intro hcontra
      exact hex (List.any_eq_true.mpr ⟨p, hp, beq_iff_eq.mpr hcontra⟩)
    refine ⟨?_, ?_⟩
    · rw [List.map_append]
      rw [List.nodup_append]
      refine ⟨hm.1, by simp, ?_⟩
      intro a ha hb
      rcases List.mem_map.mp ha with ⟨p, hp, rfl⟩
      simp only [List.map_cons, List.map_nil, List.mem_singleton] at hb
      exact hnot p hp hb
    · intro p hp
      rcases List.mem_append.mp hp with h | h
      · exact hm.2 p h
      · simp only [List.mem_singleton] at h
        subst h
        exact ⟨hk.symm, hid⟩

theorem regInv_record {m : EndpointRegistry} (hm : RegInv m) (op : RecordOp) :
    RegInv (recordEndpoint m op) := by
  unfold recordEndpoint
  rcases hc : createEndpoint op.url op.method op.source op.depth with _ | e
  · exact hm
  · exact regInv_mapSet hm rfl (createEndpoint_id hc)

theorem regInv_foldl (ops : List RecordOp) :
    ∀ m, RegInv m → RegInv (ops.foldl recordEndpoint m) := by
  induction ops with
  | nil => intro m hm; exact hm
  | cons op rest ih =>
    intro m hm
    exact ih (recordEndpoint m op) (regInv_record hm op)

theorem regInv_applyOps (ops : List RecordOp) : RegInv (applyOps ops) :=
  regInv_foldl ops [] ⟨List.nodup_nil, by intro p hp; exact absurd hp (List.not_mem_nil p)⟩

theorem mapGet_mapSet (m : EndpointRegistry) (k : String) (v : Endpoint) :
    mapGet (mapSet m k v) k = some v := by
  unfold mapSet mapGet
  by_cases hex : m.any (fun p => p.1 == k) = true
  · rw [if_pos hex]
    induction m with
    | nil => simp at hex
    | cons p rest ih =>
      by_cases h : p.1 == k
      · simp [List.find?, h]
      · have hex2 : rest.any (fun p => p.1 == k) = true := by
          rcases List.any_eq_true.mp hex with ⟨q, hq, hqk⟩
          rcases List.mem_cons.mp hq with rfl | hq2
          · exact absurd hqk (by simpa using h)
          · exact List.any_eq_true.mpr ⟨q, hq2, hqk⟩
        simpa [List.find?, h] using ih hex2
  · rw [if_neg hex]
    induction m with
    | nil => simp [List.find?]
    | cons p rest ih =>
      have hp : (p.1 == k) = false := by
        by_contra hcontra
        exact hex (List.any_eq_true.mpr
          ⟨p, List.mem_cons_self p rest, by simpa using hcontra⟩)
      have hex2 : ¬rest.any (fun p => p.1 == k) = true := by
        intro hcontra
        rcases List.any_eq_true.mp hcontra with ⟨q, hq, hqk⟩
        exact hex (List.any_eq_true.mpr ⟨q, List.mem_cons_of_mem p hq, hqk⟩)
      simpa [List.find?, hp] using ih hex2

/-! ## Claim theorems -/

/-- C4: for every pair of non-negative integers `(patternCount,
matchCount)`, the confidence-scoring function returns 0.0 when
`matchCount = 0`, and otherwise a base of 0.3, plus 0.2 if
`matchCount > 1`, plus 0.2 if `matchCount > 5`, plus 0.1 if
`matchCount > 10`, plus 0.2 if `patternCount > 2`, clamped to
[0.0, 1.0]. -/
theorem calculateConfidence_formula (patternCount matchCount : ℕ) :
    calculateConfidence patternCount matchCount =
      confidenceSpec patternCount matchCount :=
  calcConf_eq_spec patternCount matchCount

/-- C5: for fixed `patternCount` the confidence score is monotonically
non-decreasing in `matchCount`; it always lies in [0.0, 1.0]; and it is
0.0 at `matchCount = 0`. -/
theorem calculateConfidence_monotone_bounded :
    (∀ (p m1 m2 : ℕ), m1 ≤ m2 →
        calculateConfidence p m1 ≤ calculateConfidence p m2) ∧
    (∀ (p m : ℕ), 0 ≤ calculateConfidence p m ∧ calculateConfidence p m ≤ 1) ∧
    (∀ (p : ℕ), calculateConfidence p 0 = 0) := by
  refine ⟨fun p m1 m2 h => ?_, fun p m => ?_, fun p => ?_⟩
  · rw [calcConf_eq_spec, calcConf_eq_spec]
    exact confSpec_mono p h
  · rw [calcConf_eq_spec]
    exact ⟨confSpec_nonneg p m, confSpec_le_one p m⟩
  · rw [calcConf_eq_spec]
    unfold confidenceSpec
    rw [if_pos rfl]

/-- Witness for C5 at a concrete input: monotonicity applied at
`patternCount = 2`, `matchCount` 3 ≤ 7. -/
theorem calculateConfidence_monotone_bounded_witness :
    calculateConfidence 2 3 ≤ calculateConfidence 2 7 :=
  calculateConfidence_monotone_bounded.1 2 3 7 (by norm_num)

/-- C9: the domain validator satisfies the specification's test vector:
`example.com`, `api.example.co.uk`, `localhost` and `192.168.1.1` are
accepted, `not a domain!!` is rejected. -/
theorem isValidDomain_test_vector :
    isValidDomain "example.com" = true ∧
    isValidDomain "api.example.co.uk" = true ∧
    isValidDomain "localhost" = true ∧
    isValidDomain "192.168.1.1" = true ∧
    isValidDomain "not a domain!!" = false := by
  refine ⟨?_, ?_, ?_, ?_, ?_⟩ <;> decide

/-- C3: the security classifier assigns riskLevel at least `high` to
every DELETE endpoint regardless of scheme (raising, never lowering, a
prior `medium`); at least `medium` to every `http://` endpoint; a final
riskLevel equal to the maximum severity among the triggered findings;
and `hasAuth` exactly when the URL text contains an auth/login token. -/
theorem analyzeEndpointSecurity_rules (url method : String) :
    (method = "DELETE" →
      Severity.le Severity.high (analyzeEndpointSecurity url method).riskLevel = true) ∧
    (strStartsWith url "http://" = true →
      Severity.le Severity.medium (analyzeEndpointSecurity url method).riskLevel = true) ∧
    (analyzeEndpointSecurity url method).riskLevel =
      maxSeverity (analyzeEndpointSecurity url method).vulnerabilities ∧
    (analyzeEndpointSecurity url method).hasAuth =
      (strContains url "/auth" || strContains url "/login") := by
  by_cases hd : method = "DELETE" <;>
    by_cases hh : strStartsWith url "http://" = true <;>
      simp [analyzeEndpointSecurity, hd, hh, maxSeverity, Severity.sup,
        Severity.le, Severity.rank, insecureProtocolVuln, destructiveOperationVuln,
        Bool.not_eq_true]

/-- Witness for C3 at a concrete endpoint: an insecure DELETE login URL
classifies at least `high` and at least `medium`, its riskLevel is the
maximum finding severity, and `hasAuth` is set. -/
theorem analyzeEndpointSecurity_rules_witness :
    Severity.le Severity.high
      (analyzeEndpointSecurity "http://shop.example/login/do" "DELETE").riskLevel = true ∧
    Severity.le Severity.medium
      (analyzeEndpointSecurity "http://shop.example/login/do" "DELETE").riskLevel = true ∧
    (analyzeEndpointSecurity "http://shop.example/login/do" "DELETE").riskLevel =
      maxSeverity (analyzeEndpointSecurity "http://shop.example/login/do" "DELETE").vulnerabilities ∧
    (analyzeEndpointSecurity "http://shop.example/login/do" "DELETE").hasAuth =
      (strContains "http://shop.example/login/do" "/auth" ||
        strContains "http://shop.example/login/do" "/login") := by
  have h := analyzeEndpointSecurity_rules "http://shop.example/login/do" "DELETE"
  exact ⟨h.1 rfl, h.2.1 (by decide), h.2.2.1, h.2.2.2⟩

/-- C10: every parameter of an endpoint the registry creates is
required exactly when its kind is `path`, and never required when its
kind is `query`. -/
theorem createEndpoint_required_iff_path
    (url method : String) (source : EndpointSource) (depth : ℕ) (e : Endpoint)
    (h : createEndpoint url method source depth = some e) :
    ∀ p ∈ e.parameters,
      (p.required = true ↔ p.type = ParamType.path) ∧
      (p.type = ParamType.query → p.required = false) := by
  intro p hp
  unfold createEndpoint at h
  rcases hu : parseUrl url with _ | u
  · rw [hu] at h
    exact absurd h (by simp)
  · rw [hu] at h
    simp only [Option.some.injEq] at h
    subst h
    simp only at hp
    rcases List.mem_map.mp hp with ⟨q, _, hq⟩
    subst hq
    refine ⟨?_, ?_⟩
    · simp [beq_iff_eq]
    · intro ht
      simp only at ht ⊢
      rw [ht]
      decide

/-- Witness for C10: the endpoint created for
`https://example.com/users/\x7bid\x7d?q=1` has its query parameter `q` not
required and its path parameter `id` required. -/
theorem createEndpoint_required_iff_path_witness :
    ((⟨"id", ParamType.path, true⟩ : Parameter).required = true ↔
      (⟨"id", ParamType.path, true⟩ : Parameter).type = ParamType.path) ∧
    ((⟨"id", ParamType.path, true⟩ : Parameter).type = ParamType.query →
      (⟨"id", ParamType.path, true⟩ : Parameter).required = false) :=
  createEndpoint_required_iff_path "https://example.com/users/{id}?q=1" "GET"
    EndpointSource.crawl 0
    ((createEndpoint "https://example.com/users/{id}?q=1" "GET"
      EndpointSource.crawl 0).getD default)
    (by decide) ⟨"id", ParamType.path, true⟩ (by decide)

/-- C2: in every final result the (method, url) pair of each endpoint
is unique, because the registry keys endpoints by the exact string
`method ++ ":" ++ url`; and recording a later endpoint with the same
identity replaces the earlier one, so the key then maps to the most
recently recorded endpoint. -/
theorem foundEndpoints_unique_last_write (ops : List RecordOp) :
    ((applyOps ops).map (fun p => (p.2.method, p.2.url))).Nodup ∧
    (∀ (op : RecordOp) (e : Endpoint),
      createEndpoint op.url op.method op.source op.depth = some e →
      mapGet (applyOps (ops ++ [op])) e.id = some e) ∧
    (∀ p ∈ applyOps ops, p.1 = p.2.method ++ ":" ++ p.2.url) := by
  have hinv := regInv_applyOps ops
  refine ⟨?_, ?_, ?_⟩
  · have hkeys := hinv.1
    have heq : (applyOps ops).map Prod.fst =
        ((applyOps ops).map (fun p => (p.2.method, p.2.url))).map
          (fun q => q.1 ++ ":" ++ q.2) := by
      rw [List.map_map]
      apply List.map_congr_left
      intro p hp
      have h2 := hinv.2 p hp
      exact h2.1.trans h2.2
    rw [heq] at hkeys
    exact List.Nodup.of_map _ hkeys
  · intro op e hc
    have happ : applyOps (ops ++ [op]) = recordEndpoint (applyOps ops) op := by
      unfold applyOps
      rw [List.foldl_append]
      rfl
    rw [happ]
    unfold recordEndpoint
    rw [hc]
    exact mapGet_mapSet _ _ _
  · intro p hp
    have h2 := hinv.2 p hp
    exact h2.1.trans h2.2

def demoRecordOp : RecordOp :=
  { url := "https://example.com/api/users", method := "GET",
    source := EndpointSource.sitemap, depth := 0 }

def demoEndpoint : Endpoint :=
  (createEndpoint "https://example.com/api/users" "GET"
    EndpointSource.sitemap 0).getD default

/-- Witness for C2: re-recording `GET https://example.com/api/users`
into a session makes its key map to the newly recorded endpoint. -/
theorem foundEndpoints_unique_last_write_witness :
    mapGet (applyOps ([demoRecordOp] ++ [demoRecordOp])) demoEndpoint.id =
      some demoEndpoint :=
  (foundEndpoints_unique_last_write [demoRecordOp]).2.1 demoRecordOp demoEndpoint
    (by decide)

/-- C6 as stated is false on the code: this URL matches the
`looksLikeAPI` heuristic, yet `shouldCrawlUrl` rejects it — and only
because its path ends in the excluded extension `.png` (the URL is
same-origin with the base, so no other exclusion applies; the source
checks the extension list before the API heuristic). -/
theorem shouldCrawlUrl_api_extension_counterexample :
    looksLikeAPI "https://example.com/api/photo.png" = true ∧
    parseUrl "https://example.com/api/photo.png" =
      some { protocol := "https:", hostname := "example.com", port := "",
             pathname := "/api/photo.png", search := "", hash := "" } ∧
    strEndsWith (strToLower "/api/photo.png") ".png" = true ∧
    shouldCrawlUrl true "https://example.com/api/photo.png"
      "https://example.com/" = false ∧
    shouldCrawlUrl false "https://example.com/api/photo.png"
      "https://example.com/" = false := by
  refine ⟨?_, ?_, ?_, ?_, ?_⟩ <;> decide

/-- C6 amended: the extension exclusion takes precedence over the API
heuristic — `shouldCrawlUrl` returns false whenever the URL's path ends
in a non-content extension, even for URLs matching `looksLikeAPI`;
conversely, for a URL whose path does not end in such an extension and
which is same-host or crawled with `includeExternalLinks`, matching
`looksLikeAPI` guarantees the URL is followed. -/
theorem shouldCrawlUrl_extension_precedence
    (inc : Bool) (url baseUrl : String) (u b : UrlObj)
    (hu : parseUrl url = some u) (hb : parseUrl baseUrl = some b) :
    (skipExtensions.any (fun ext => strEndsWith (strToLower u.pathname) ext) = true →
      shouldCrawlUrl inc url baseUrl = false) ∧
    (skipExtensions.any (fun ext => strEndsWith (strToLower u.pathname) ext) = false →
      (inc = true ∨ u.hostname = b.hostname) →
      looksLikeAPI url = true →
      shouldCrawlUrl inc url baseUrl = true) := by
  unfold shouldCrawlUrl
  rw [hu, hb]
  refine ⟨?_, ?_⟩
  · intro hext
    by_cases h1 : (!inc && decide (u.hostname ≠ b.hostname) &&
        !(looksLikeAPI url &&
          (strContains u.hostname "api" || strContains u.hostname "rest" ||
           strContains u.hostname "service" ||
           strContains url "/api/" || strContains url "/rest/"))) = true
    · simp only [h1, if_true]
    · simp only [h1, if_false, Bool.false_eq_true, if_neg, hext, if_true]
  · intro hext hhost hapi
    have h1 : (!inc && decide (u.hostname ≠ b.hostname) &&
        !(looksLikeAPI url &&
          (strContains u.hostname "api" || strContains u.hostname "rest" ||
           strContains u.hostname "service" ||
           strContains url "/api/" || strContains url "/rest/"))) = false := by
      rcases hhost with hinc | hh
      · rw [hinc]
        simp
      · simp [hh]
    simp [h1, hext, hapi]
    exact Or.inl hhost

def c6goodUrlObj : UrlObj :=
  { protocol := "https:", hostname := "example.com", port := "",
    pathname := "/api/users", search := "", hash := "" }

def c6baseUrlObj : UrlObj :=
  { protocol := "https:", hostname := "example.com", port := "",
    pathname := "/", search := "", hash := "" }

/-- Witness for the amended C6: a same-origin API-looking URL without a
skip extension is followed. -/
theorem shouldCrawlUrl_extension_precedence_witness :
    shouldCrawlUrl true "https://example.com/api/users"
      "https://example.com/" = true :=
  (shouldCrawlUrl_extension_precedence true "https://example.com/api/users"
    "https://example.com/" c6goodUrlObj c6baseUrlObj (by decide) (by decide)).2
    (by decide) (Or.inl rfl) (by decide)

/-- C7: a domain the URL normalizer cannot parse makes the crawl emit
only the `initializing` and `error` progress stages, reject with the
validation error, and issue zero network requests against the target —
shown for every continuation of the validated path, together with the
concrete invalid domain from the specification. -/
theorem crawl_invalid_domain :
    (∀ (domain : String) (rest : String → CrawlOutcome),
      normalizeUrl domain = none →
      crawlRun domain rest =
        { events := [Stage.initializing, Stage.error],
          result := Except.error "Invalid domain provided",
          targetRequests := [] }) ∧
    normalizeUrl "not a domain!!" = none := by
  refine ⟨?_, by decide⟩
  intro domain rest h
  unfold crawlRun
  rw [h]

/-- Witness for C7 at the specification's invalid domain. -/
theorem crawl_invalid_domain_witness :
    crawlRun "not a domain!!"
      (fun _ => { events := [], result := Except.ok (), targetRequests := [] }) =
      { events := [Stage.initializing, Stage.error],
        result := Except.error "Invalid domain provided",
        targetRequests := [] } :=
  crawl_invalid_domain.1 "not a domain!!" _ (by decide)

/-- Content of a static-client outcome as `fetchPageContent` reports
it: the page text on success, `null` on a logged failure. -/
def exceptContent (r : Except String String) : Option String :=
  match r with
  | Except.ok c => some c
  | Except.error _ => none

/-- C8: with JavaScript rendering enabled, a browser navigation failure
makes the crawler fetch the same URL with the static client, and the
overall outcome is the static client's outcome (never a propagated
failure); a browser initialization failure disables rendered mode, after
which every fetch uses the static client. -/
theorem fetchPageContent_rendered_fallback :
    (∀ (url navErr : String) (ax : Except String String),
      fetchPageContent ⟨true, true⟩ url (Except.error navErr) ax =
        (exceptContent ax,
         [(FetchClient.puppeteer, url), (FetchClient.axios, url)])) ∧
    (∀ launchErr : String,
      browserInit ⟨true, false⟩ (Except.error launchErr) = ⟨false, false⟩) ∧
    (∀ (url : String) (pup ax : Except String String),
      fetchPageContent ⟨false, false⟩ url pup ax =
        (exceptContent ax, [(FetchClient.axios, url)])) := by
  refine ⟨?_, ?_, ?_⟩
  · intro url navErr ax
    cases ax <;> rfl
  · intro launchErr
    rfl
  · intro url pup ax
    cases ax <;> rfl

def overshootConfig : SimConfig :=
  { maxPages := 1, includeExternalLinks := true, fetchedLinks := fun _ => [] }

def overshootStart : SimState :=
  { queue := ["https://a.example/x", "https://b.example/y"],
    visited := [], pendingTasks := [] }

/-- C1 fails on the code: with `maxPages = 1` and two distinct seed
URLs, the admission loop launches both fetches before either records a
visit (each passes the budget guard before its rate-limiter suspension),
and the completed session reports 2 visited pages — more than
`maxPages`. -/
theorem crawlParallel_exceeds_maxPages :
    overshootConfig.maxPages = 1 ∧
    (crawlParallel overshootConfig 10 overshootStart).visited =
      ["https://a.example/x", "https://b.example/y"] ∧
    overshootConfig.maxPages <
      (crawlParallel overshootConfig 10 overshootStart).visited.length := by
  refine ⟨rfl, ?_, ?_⟩ <;> decide

end APIMapper
